import Mathlib

/-!
Verification of the localStorage-backed submission rate limiter in
`src/js/main.js` (J&A Printhaus website).

Shallow embedding conventions:
* A JavaScript number is modelled by `JSNum`: either `NaN`, `+Infinity`,
  `-Infinity`, or a finite value.  Timestamps produced by `Date.now()` are
  integers, so the finite case carries an `Int`.
* A parsed JSON value is modelled by `JSVal`.  The raw string in
  `localStorage` is abstracted to `StoredVal`: the key may be absent, may
  hold text that `JSON.parse` rejects (`malformed`, which also covers the
  empty string, rejected by the `if (!stored)` guard), or may hold text
  parsing to a `JSVal`.  `JSON.parse` can produce non-finite numbers
  (e.g. the text `1e999` parses to `Infinity`), and `JSON.stringify`
  serialises `NaN`/`Infinity` as `null`; both behaviours are modelled.
* `saveSubmissions` wraps `localStorage.setItem` in try/catch; the
  possibility of a write failure is modelled by a `writeOk : Bool`
  parameter: on failure the store is left unchanged and the caller
  continues (the catch block only logs).
* `Date.now()` is modelled by an explicit `now : Int` parameter, threaded
  to every internal use within one operation.
-/

/-- A JavaScript number: `NaN`, `+Infinity`, `-Infinity`, or a finite
value (timestamps are integral). -/
inductive JSNum where
  | nan
  | posInf
  | negInf
  | fin (v : Int)
deriving DecidableEq, Repr

/-- A parsed JSON value, as produced by `JSON.parse`. -/
inductive JSVal where
  | null
  | bool (b : Bool)
  | num (n : JSNum)
  | str (s : String)
  | arr (xs : List JSVal)
  | obj (fields : List (String × JSVal))
deriving Repr

/-- The state of the `form_submissions` key in `localStorage`: absent,
holding text `JSON.parse` rejects, or holding text that parses. -/
inductive StoredVal where
  | absent
  | malformed
  | parsed (v : JSVal)
deriving Repr

/-- `RATE_LIMIT.MAX_SUBMISSIONS` in `src/js/main.js`. -/
def MAX_SUBMISSIONS : Int := 5

/-- `RATE_LIMIT.TIME_WINDOW` in `src/js/main.js`: one hour in ms. -/
def TIME_WINDOW : Int := 3600000

/-- The element test in `getSubmissions`:
`item => typeof item === 'number' && !isNaN(item)`, returning the kept
number.  `typeof` admits every `JSNum` (including infinities); `isNaN`
rejects only `NaN`. -/
def jsEntryNum : JSVal → Option JSNum
  | .num .nan => none
  | .num n => some n
  | _ => none

/-- `getSubmissions()` (src/js/main.js:130-144): read the stored value;
absent or unparseable gives `[]`; a parsed non-array gives `[]`; a parsed
array keeps exactly its numeric non-`NaN` elements, in order. -/
def getSubmissions : StoredVal → List JSNum
  | .absent => []
  | .malformed => []
  | .parsed (.arr xs) => xs.filterMap jsEntryNum
  | .parsed _ => []

/-- `JSON.stringify` on one array element: finite numbers are written as
themselves; `NaN` and the infinities are written as `null`. -/
def stringifyEntry : JSNum → JSVal
  | .fin v => .num (.fin v)
  | _ => .null

/-- The JSON value whose text `JSON.stringify(submissions)` writes. -/
def serializeLog (subs : List JSNum) : JSVal :=
  .arr (subs.map stringifyEntry)

/-- `saveSubmissions(submissions)` (src/js/main.js:149-155): write the
serialised log; a failing `setItem` is caught (only logged), leaving the
store unchanged.  `writeOk` selects which branch the environment takes. -/
def saveSubmissions (writeOk : Bool) (store : StoredVal)
    (subs : List JSNum) : StoredVal :=
  if writeOk then .parsed (serializeLog subs) else store

/-- The filter predicate of `cleanupOldSubmissions`:
`timestamp => now - timestamp < RATE_LIMIT.TIME_WINDOW` under JS
arithmetic.  `now - (+Infinity) = -Infinity < window` holds;
`now - (-Infinity) = +Infinity < window` fails; any comparison with
`NaN` fails. -/
def agesWithinWindow (now : Int) : JSNum → Bool
  | .nan => false
  | .posInf => true
  | .negInf => false
  | .fin t => now - t < TIME_WINDOW

/-- `cleanupOldSubmissions(submissions)` (src/js/main.js:160-163), with
its internal `Date.now()` made an explicit parameter. -/
def cleanupOldSubmissions (now : Int) (subs : List JSNum) : List JSNum :=
  subs.filter (agesWithinWindow now)

/-- JS addition of a number and a finite integer constant, used for
`submissions[0] + RATE_LIMIT.TIME_WINDOW`. -/
def jsAddInt : JSNum → Int → JSNum
  | .nan, _ => .nan
  | .posInf, _ => .posInf
  | .negInf, _ => .negInf
  | .fin v, c => .fin (v + c)

/-- The record returned by `checkRateLimit` (src/js/main.js:167):
`{ allowed: boolean, remaining: number, resetTime: number|null }`. -/
structure RateLimitDecision where
  allowed : Bool
  remaining : Int
  resetTime : Option JSNum
deriving DecidableEq, Repr

/-- `checkRateLimit()` (src/js/main.js:169-184): load, prune, persist the
pruned log, then decide.  Returns the decision together with the
resulting store state. -/
def checkRateLimit (writeOk : Bool) (store : StoredVal) (now : Int) :
    RateLimitDecision × StoredVal :=
  let submissions := cleanupOldSubmissions now (getSubmissions store)
  let store' := saveSubmissions writeOk store submissions
  let remaining := MAX_SUBMISSIONS - submissions.length
  let allowed := decide (remaining > 0)
  let resetTime :=
    if !allowed && submissions.length > 0 then
      submissions.head?.map (fun t => jsAddInt t TIME_WINDOW)
    else none
  (⟨allowed, remaining, resetTime⟩, store')

/-- `recordSubmission()` (src/js/main.js:189-194): load, prune, append
the current time, persist. -/
def recordSubmission (writeOk : Bool) (store : StoredVal) (now : Int) :
    StoredVal :=
  let submissions := cleanupOldSubmissions now (getSubmissions store)
  saveSubmissions writeOk store (submissions ++ [.fin now])

/-- Length of a JSON array value (0 on non-arrays); used to talk about
the length of the persisted array, which `JSON.stringify` preserves even
for non-finite entries (they become `null`). -/
def JSVal.arrLen : JSVal → Nat
  | .arr xs => xs.length
  | _ => 0

/-! ## Helper lemmas -/

/-- Characterisation of the element filter of `getSubmissions`. -/
theorem jsEntryNum_eq_some (x : JSVal) (n : JSNum) :
    jsEntryNum x = some n ↔ x = .num n ∧ n ≠ .nan := by
  cases x with
  | num m => cases m <;> cases n <;> simp [jsEntryNum]
  | null => simp [jsEntryNum]
  | bool b => simp [jsEntryNum]
  | str s => simp [jsEntryNum]
  | arr xs => simp [jsEntryNum]
  | obj fs => simp [jsEntryNum]

theorem checkRateLimit_remaining (w : Bool) (store : StoredVal) (now : Int) :
    (checkRateLimit w store now).1.remaining =
      MAX_SUBMISSIONS - (cleanupOldSubmissions now (getSubmissions store)).length := rfl

theorem checkRateLimit_allowed (w : Bool) (store : StoredVal) (now : Int) :
    (checkRateLimit w store now).1.allowed =
      decide ((cleanupOldSubmissions now (getSubmissions store)).length < 5) := by
  simp only [checkRateLimit, MAX_SUBMISSIONS, decide_eq_decide]
  omega

theorem checkRateLimit_snd (w : Bool) (store : StoredVal) (now : Int) :
    (checkRateLimit w store now).2 =
      saveSubmissions w store (cleanupOldSubmissions now (getSubmissions store)) := rfl


/-! ## Claim C1 -/

/-- C1: for every store and time, writing `n` for the length of the
freshly pruned log, `checkRateLimit` returns `remaining = 5 - n` and
`allowed` exactly when `n < 5`; in particular a pruned log of exactly 5
in-window entries yields `allowed = false`, `remaining = 0`. -/
theorem checkRateLimit_monotone_allow_deny (store : StoredVal) (now : Int) :
    ((checkRateLimit true store now).1.remaining =
      5 - ((cleanupOldSubmissions now (getSubmissions store)).length : Int)) ∧
    ((checkRateLimit true store now).1.allowed = true ↔
      (cleanupOldSubmissions now (getSubmissions store)).length < 5) ∧
    (checkRateLimit true (.parsed (.arr [.num (.fin 0), .num (.fin 1), .num (.fin 2),
      .num (.fin 3), .num (.fin 4)])) 5).1 = ⟨false, 0, some (.fin 3600000)⟩ := by
  refine ⟨rfl, ?_, by decide⟩
  rw [checkRateLimit_allowed]
  simp

/-- C1 witness: concrete instance of the allow/deny equivalence. -/
theorem checkRateLimit_monotone_allow_deny_witness :
    (checkRateLimit true (.parsed (.arr [.num (.fin 0)])) 1).1.allowed = true :=
  ((checkRateLimit_monotone_allow_deny (.parsed (.arr [.num (.fin 0)])) 1).2.1).mpr
    (by decide)

/-! ## Claim C2 -/

/-- C2 counterexample: at `now = 3600005` the ages of entries `1..4` are
`3600004..3600001`, all `≥ 3600000`, so `checkRateLimit` prunes the whole
log `[0,1,2,3,4]` and returns `remaining = 5`, not `remaining = 1` as the
claim states. -/
theorem scenarioD_as_stated_false :
    (checkRateLimit true (.parsed (.arr [.num (.fin 0), .num (.fin 1), .num (.fin 2),
      .num (.fin 3), .num (.fin 4)])) 3600005).1 = ⟨true, 5, none⟩ ∧
    (checkRateLimit true (.parsed (.arr [.num (.fin 0), .num (.fin 1), .num (.fin 2),
      .num (.fin 3), .num (.fin 4)])) 3600005).1.remaining ≠ 1 ∧
    cleanupOldSubmissions 3600005 [.fin 0, .fin 1, .fin 2, .fin 3, .fin 4] = [] := by
  decide

/-- C2 amended: with stored log `[0,1,2,3,4]` and `now = 3600000`,
pruning drops entry `0` (age `3600000 ≥` window) and keeps `1..4`
(ages `3599999..3599996 <` window), so `checkRateLimit` returns
`allowed = true`, `remaining = 1`. -/
theorem scenarioD_amended :
    (checkRateLimit true (.parsed (.arr [.num (.fin 0), .num (.fin 1), .num (.fin 2),
      .num (.fin 3), .num (.fin 4)])) 3600000).1 = ⟨true, 1, none⟩ ∧
    cleanupOldSubmissions 3600000 [.fin 0, .fin 1, .fin 2, .fin 3, .fin 4] =
      [.fin 1, .fin 2, .fin 3, .fin 4] := by
  decide

/-! ## Claim C3 -/

/-- C3: pruning returns a sublist of its input (hence order-preserving,
and as a pure function it cannot mutate its argument), and a finite entry
`t` survives exactly when `now - t < 3600000`. -/
theorem cleanupOldSubmissions_exact_subsequence (now : Int) (L : List JSNum) :
    (cleanupOldSubmissions now L).Sublist L ∧
    ∀ t : Int, JSNum.fin t ∈ cleanupOldSubmissions now L ↔
      JSNum.fin t ∈ L ∧ now - t < TIME_WINDOW := by
  refine ⟨List.filter_sublist L, fun t => ?_⟩
  simp [cleanupOldSubmissions, List.mem_filter, agesWithinWindow]

/-- C3 witness: the characterisation at a concrete log and time. -/
theorem cleanupOldSubmissions_exact_subsequence_witness :
    (cleanupOldSubmissions 3600000 [.fin 0, .fin 1]).Sublist [.fin 0, .fin 1] ∧
    (JSNum.fin 1 ∈ cleanupOldSubmissions 3600000 [.fin 0, .fin 1] ∧
      (3600000 : Int) - 1 < TIME_WINDOW) :=
  ⟨(cleanupOldSubmissions_exact_subsequence 3600000 [.fin 0, .fin 1]).1,
   ⟨((cleanupOldSubmissions_exact_subsequence 3600000 [.fin 0, .fin 1]).2 1).mpr
      (by decide), by decide⟩⟩

/-! ## Claim C9 -/

/-- C9: a failing store write is swallowed: the decision of
`checkRateLimit` is the same whether or not the write succeeds, a failed
write leaves the store unchanged, and `recordSubmission` with a failing
write also returns without fault, leaving the store unchanged. -/
theorem storage_write_failure_swallowed (store : StoredVal) (now : Int) :
    ((checkRateLimit false store now).1 = (checkRateLimit true store now).1) ∧
    ((checkRateLimit false store now).2 = store) ∧
    (recordSubmission false store now = store) :=
  ⟨rfl, rfl, rfl⟩

/-! ## Claim C10 -/

/-- C10: `recordSubmission` appends unconditionally: the persisted value
is always the serialisation of the pruned log with `now` appended, whose
array length is pruned-length + 1 (no cap at record time); with five
in-window entries already stored, recording and then checking yields
`remaining = -1`. -/
theorem recordSubmission_appends_unconditionally (store : StoredVal) (now : Int) :
    (recordSubmission true store now =
      .parsed (serializeLog (cleanupOldSubmissions now (getSubmissions store) ++
        [.fin now]))) ∧
    ((serializeLog (cleanupOldSubmissions now (getSubmissions store) ++
        [.fin now])).arrLen =
      (cleanupOldSubmissions now (getSubmissions store)).length + 1) ∧
    ((checkRateLimit true (recordSubmission true
        (.parsed (.arr [.num (.fin 0), .num (.fin 0), .num (.fin 0), .num (.fin 0),
          .num (.fin 0)])) 0) 0).1.remaining = -1) := by
  refine ⟨rfl, ?_, by decide⟩
  simp [serializeLog, JSVal.arrLen]

/-! ## Claim C4 -/

/-- C4: when the decision is not allowed, `resetTime` is the earliest
surviving entry plus `3600000`; it is absent (`none`) whenever allowed,
or whenever the pruned log is empty (and indeed a denial forces the
pruned log non-empty). -/
theorem checkRateLimit_resetTime (w : Bool) (store : StoredVal) (now : Int) :
    (checkRateLimit w store now).1.resetTime =
      if 5 ≤ (cleanupOldSubmissions now (getSubmissions store)).length then
        (cleanupOldSubmissions now (getSubmissions store)).head?.map
          (fun t => jsAddInt t TIME_WINDOW)
      else none := by
  simp only [checkRateLimit, MAX_SUBMISSIONS]
  by_cases h : 5 ≤ (cleanupOldSubmissions now (getSubmissions store)).length
  · rw [if_pos h]
    have h1 : decide ((5:Int) - (cleanupOldSubmissions now (getSubmissions store)).length
        > 0) = false := by
      rw [decide_eq_false_iff_not]
      omega
    have h2 : decide ((cleanupOldSubmissions now (getSubmissions store)).length > 0)
        = true := by
      rw [decide_eq_true_eq]
      omega
    simp only [h1, h2, Bool.not_false, Bool.true_and]
    simp
  · rw [if_neg h]
    have h1 : decide ((5:Int) - (cleanupOldSubmissions now (getSubmissions store)).length
        > 0) = true := by
      rw [decide_eq_true_eq]
      omega
    simp only [h1, Bool.not_true, Bool.false_and]
    simp

theorem checkRateLimit_resetTime_correct (store : StoredVal) (now : Int) :
    ((checkRateLimit true store now).1.resetTime =
      if (checkRateLimit true store now).1.allowed = true then none
      else (cleanupOldSubmissions now (getSubmissions store)).head?.map
        (fun t => jsAddInt t TIME_WINDOW)) ∧
    ((checkRateLimit true store now).1.allowed = false →
      cleanupOldSubmissions now (getSubmissions store) ≠ []) := by
  rw [checkRateLimit_resetTime, checkRateLimit_allowed]
  by_cases h : (cleanupOldSubmissions now (getSubmissions store)).length < 5
  · constructor
    · rw [if_neg (by omega), if_pos (decide_eq_true h)]
    · intro hf
      rw [decide_eq_false_iff_not] at hf
      exact absurd h hf
  · constructor
    · rw [if_pos (by omega), if_neg ?_]
      rw [decide_eq_true_eq]
      exact h
    · intro _
      have hlen : 0 < (cleanupOldSubmissions now (getSubmissions store)).length := by
        omega
      exact List.length_pos.mp hlen

/-- C4 witness: with five fresh entries the decision denies and
`resetTime` is the earliest entry plus the window. -/
theorem checkRateLimit_resetTime_correct_witness :
    ((checkRateLimit true (.parsed (.arr [.num (.fin 2), .num (.fin 3), .num (.fin 4),
      .num (.fin 5), .num (.fin 6)])) 10).1.resetTime =
      if (checkRateLimit true (.parsed (.arr [.num (.fin 2), .num (.fin 3), .num (.fin 4),
        .num (.fin 5), .num (.fin 6)])) 10).1.allowed = true then none
      else (cleanupOldSubmissions 10 (getSubmissions (.parsed (.arr [.num (.fin 2),
        .num (.fin 3), .num (.fin 4), .num (.fin 5), .num (.fin 6)])))).head?.map
        (fun t => jsAddInt t TIME_WINDOW)) ∧
    cleanupOldSubmissions 10 (getSubmissions (.parsed (.arr [.num (.fin 2), .num (.fin 3),
      .num (.fin 4), .num (.fin 5), .num (.fin 6)]))) ≠ [] :=
  ⟨(checkRateLimit_resetTime_correct (.parsed (.arr [.num (.fin 2), .num (.fin 3),
      .num (.fin 4), .num (.fin 5), .num (.fin 6)])) 10).1,
   (checkRateLimit_resetTime_correct (.parsed (.arr [.num (.fin 2), .num (.fin 3),
      .num (.fin 4), .num (.fin 5), .num (.fin 6)])) 10).2 (by decide)⟩

/-! ## Claim C5 -/

/-- C5 counterexample: a stored array holding a non-numeric entry is not
blanked to the empty log: `getSubmissions` keeps its numeric entries, so
on `[1, "x"]` it returns `[1]`, not `[]` as the claim states. -/
theorem getSubmissions_mixed_array_not_empty :
    getSubmissions (.parsed (.arr [.num (.fin 1), .str "x"])) = [.fin 1] ∧
    getSubmissions (.parsed (.arr [.num (.fin 1), .str "x"])) ≠ [] := by
  decide

/-- C5 amended: `getSubmissions` never fails and always yields a list of
numbers; a stored value that is absent, unparseable, or parses to a
non-array (object, string, boolean, number, null) yields `[]`; a stored
array yields exactly its numeric non-`NaN` entries (non-numeric entries
are dropped individually, not the whole log). -/
theorem getSubmissions_resilient :
    getSubmissions .absent = [] ∧
    getSubmissions .malformed = [] ∧
    (∀ v : JSVal, (∀ xs : List JSVal, v ≠ .arr xs) →
      getSubmissions (.parsed v) = []) ∧
    (∀ (xs : List JSVal) (n : JSNum),
      n ∈ getSubmissions (.parsed (.arr xs)) ↔ .num n ∈ xs ∧ n ≠ .nan) := by
  refine ⟨rfl, rfl, fun v hv => ?_, fun xs n => ?_⟩
  · cases v with
    | arr xs => exact absurd rfl (hv xs)
    | null => rfl
    | bool b => rfl
    | num m => rfl
    | str s => rfl
    | obj fs => rfl
  · simp only [getSubmissions, List.mem_filterMap, jsEntryNum_eq_some]
    constructor
    · rintro ⟨a, ha, rfl, hn⟩
      exact ⟨ha, hn⟩
    · rintro ⟨ha, hn⟩
      exact ⟨.num n, ha, rfl, hn⟩

/-- C5 witness: a parsed string yields the empty log, and a numeric entry
of a stored array is kept. -/
theorem getSubmissions_resilient_witness :
    getSubmissions (.parsed (.str "oops")) = [] ∧
    JSNum.fin 7 ∈ getSubmissions (.parsed (.arr [.str "a", .num (.fin 7)])) :=
  ⟨getSubmissions_resilient.2.2.1 (.str "oops") (fun xs => by simp),
   (getSubmissions_resilient.2.2.2 [.str "a", .num (.fin 7)] (.fin 7)).mpr
     ⟨by simp, by simp⟩⟩

/-! ## Claim C6 -/

/-- C6 counterexample: the load filter keeps any non-`NaN` number, so a
stored array `[-5, Infinity]` loads as `[-5, Infinity]`: the loaded log
can contain a negative entry and a non-finite entry, contradicting the
claimed finite/non-negative invariant. -/
theorem getSubmissions_keeps_negative_and_infinite :
    getSubmissions (.parsed (.arr [.num (.fin (-5)), .num .posInf])) =
      [.fin (-5), .posInf] ∧
    ¬ ((0:Int) ≤ -5) := by
  decide

/-- C6 amended: every element of a loaded log is a number other than
`NaN` (non-numeric and `NaN` entries are discarded without failure), but
negative and non-finite numeric entries are retained, not discarded. -/
theorem getSubmissions_entries_not_nan (v : StoredVal) :
    (∀ n ∈ getSubmissions v, n ≠ JSNum.nan) ∧
    (∀ (xs : List JSVal) (n : JSNum), n ≠ .nan → .num n ∈ xs →
      n ∈ getSubmissions (.parsed (.arr xs))) := by
  constructor
  · intro n hn
    cases v with
    | absent => simp [getSubmissions] at hn
    | malformed => simp [getSubmissions] at hn
    | parsed w =>
        cases w with
        | arr xs =>
            simp only [getSubmissions, List.mem_filterMap, jsEntryNum_eq_some] at hn
            obtain ⟨a, _, _, hne⟩ := hn
            exact hne
        | null => simp [getSubmissions] at hn
        | bool b => simp [getSubmissions] at hn
        | num m => simp [getSubmissions] at hn
        | str s => simp [getSubmissions] at hn
        | obj fs => simp [getSubmissions] at hn
  · intro xs n hne hmem
    simp only [getSubmissions, List.mem_filterMap, jsEntryNum_eq_some]
    exact ⟨.num n, hmem, rfl, hne⟩

/-- C6 witness: no `NaN` among the entries loaded from `[-5, NaN]`, and
the retained negative entry is a member. -/
theorem getSubmissions_entries_not_nan_witness :
    (∀ n ∈ getSubmissions (.parsed (.arr [.num (.fin (-5)), .num .nan])),
      n ≠ JSNum.nan) ∧
    JSNum.fin (-5) ∈ getSubmissions (.parsed (.arr [.num (.fin (-5)), .num .nan])) :=
  ⟨(getSubmissions_entries_not_nan (.parsed (.arr [.num (.fin (-5)), .num .nan]))).1,
   (getSubmissions_entries_not_nan (.parsed (.arr [.num (.fin (-5)),
     .num .nan]))).2 [.num (.fin (-5)), .num .nan] (.fin (-5)) (by decide) (by simp)⟩

/-! ## Claim C7: the countdown timer state machine -/

/-- The browser's repeating-timer table together with the module variable
`rateLimitCountdownInterval` (src/js/main.js:125): `nextId` is the next
fresh interval id, `active` the ids of currently scheduled repeating
callbacks (in creation order), `handle` the id remembered by the
module variable (`none` models `null`). -/
structure TimerSys where
  nextId : Nat
  active : List Nat
  handle : Option Nat
deriving DecidableEq, Repr

/-- `clearInterval(h)`: deschedule the repeating callback with id `h`. -/
def clearIntervalSys (s : TimerSys) (h : Nat) : TimerSys :=
  { s with active := s.active.filter (fun i => i ≠ h) }

/-- `setInterval(cb, 1000)`: schedule a fresh repeating callback and
return its id. -/
def setIntervalSys (s : TimerSys) : TimerSys × Nat :=
  ({ s with nextId := s.nextId + 1, active := s.active ++ [s.nextId] }, s.nextId)

/-- The timer effect of `showRateLimitMessage(resetTime)`
(src/js/main.js:208-244): if `rateLimitCountdownInterval` is non-null,
clear it and null it out; then start a new interval and store its id in
`rateLimitCountdownInterval`. -/
def showRateLimitMessageTimers (s : TimerSys) : TimerSys :=
  let s1 :=
    match s.handle with
    | some h => { clearIntervalSys s h with handle := none }
    | none => s
  let p := setIntervalSys s1
  { p.1 with handle := some p.2 }

/-- Page state before the first countdown: no interval scheduled and
`rateLimitCountdownInterval = null`. -/
def initTimers : TimerSys := ⟨0, [], none⟩

/-- After `n + 1` countdown starts from a fresh page, the interval with
id `n` is the active one and the module variable holds it. -/
theorem showRateLimit_iterate (n : Nat) :
    showRateLimitMessageTimers^[n + 1] initTimers = ⟨n + 1, [n], some n⟩ := by
  induction n with
  | zero => rfl
  | succ k ih =>
      rw [Function.iterate_succ_apply', ih]
      simp [showRateLimitMessageTimers, clearIntervalSys, setIntervalSys]

/-- C7: after any sequence of `n + 1` `showRateLimitMessage` calls,
exactly the most recent repeating callback (id `n`) is scheduled, and
every superseded id `j < n` is descheduled — since ids only grow, a
superseded callback never fires again. -/
theorem single_active_countdown (n : Nat) :
    (showRateLimitMessageTimers^[n + 1] initTimers).active = [n] ∧
    ∀ j < n, j ∉ (showRateLimitMessageTimers^[n + 1] initTimers).active := by
  rw [showRateLimit_iterate]
  refine ⟨rfl, fun j hj hmem => ?_⟩
  simp only [List.mem_singleton] at hmem
  omega

/-- C7 witness: after three starts only interval 2 survives; the
superseded intervals 0 and 1 are gone. -/
theorem single_active_countdown_witness :
    (showRateLimitMessageTimers^[3] initTimers).active = [2] ∧
    0 ∉ (showRateLimitMessageTimers^[3] initTimers).active ∧
    1 ∉ (showRateLimitMessageTimers^[3] initTimers).active :=
  ⟨(single_active_countdown 2).1,
   (single_active_countdown 2).2 0 (by decide),
   (single_active_countdown 2).2 1 (by decide)⟩

/-! ## Claim C8 -/

/-- Finiteness test on a JS number. -/
def JSNum.isFinite : JSNum → Bool
  | .fin _ => true
  | _ => false

/-- A log of finite numbers survives the stringify/parse round trip
unchanged. -/
theorem getSubmissions_serializeLog (L : List JSNum)
    (h : ∀ n ∈ L, ∃ v, n = JSNum.fin v) :
    getSubmissions (.parsed (serializeLog L)) = L := by
  induction L with
  | nil => rfl
  | cons a l ih =>
      have hl : ∀ n ∈ l, ∃ v, n = JSNum.fin v :=
        fun n hn => h n (List.mem_cons_of_mem a hn)
      obtain ⟨v, rfl⟩ := h a (List.mem_cons_self a l)
      simp only [serializeLog, getSubmissions, List.map_cons, List.filterMap_cons,
        stringifyEntry, jsEntryNum]
      have := ih hl
      simp only [serializeLog, getSubmissions] at this
      rw [this]

/-- C8 counterexample: with stored text `[1e999,0,0,0,0]` (which parses
to `[Infinity,0,0,0,0]`) and `now = 0`, the first `checkRateLimit` keeps
all five entries (`Infinity` survives pruning) and denies, but persists
`[null,0,0,0,0]` because `JSON.stringify(Infinity)` is `null`; the second
call therefore loads only four entries and allows: the two decisions
differ. -/
theorem checkRateLimit_second_call_differs :
    ((checkRateLimit true (.parsed (.arr [.num .posInf, .num (.fin 0), .num (.fin 0),
      .num (.fin 0), .num (.fin 0)])) 0).1.allowed = false) ∧
    ((checkRateLimit true (checkRateLimit true (.parsed (.arr [.num .posInf,
      .num (.fin 0), .num (.fin 0), .num (.fin 0), .num (.fin 0)])) 0).2 0).1.allowed
      = true) ∧
    ((checkRateLimit true (checkRateLimit true (.parsed (.arr [.num .posInf,
      .num (.fin 0), .num (.fin 0), .num (.fin 0), .num (.fin 0)])) 0).2 0).1 ≠
      (checkRateLimit true (.parsed (.arr [.num .posInf, .num (.fin 0), .num (.fin 0),
        .num (.fin 0), .num (.fin 0)])) 0).1) := by
  decide

/-- C8 amended: whenever every loaded entry is finite — which holds for
every log the limiter itself writes — two `checkRateLimit` calls in
immediate succession at the same time, the second reading the log
persisted by the first, return identical decisions. -/
theorem checkRateLimit_idempotent (store : StoredVal) (now : Int)
    (h : ∀ n ∈ getSubmissions store, n.isFinite = true) :
    (checkRateLimit true (checkRateLimit true store now).2 now).1 =
      (checkRateLimit true store now).1 := by
  have hP : ∀ n ∈ cleanupOldSubmissions now (getSubmissions store), ∃ v, n = JSNum.fin v := by
    intro n hn
    have hfin := h n (List.mem_of_mem_filter hn)
    cases n with
    | fin v => exact ⟨v, rfl⟩
    | nan => simp [JSNum.isFinite] at hfin
    | posInf => simp [JSNum.isFinite] at hfin
    | negInf => simp [JSNum.isFinite] at hfin
  have h2 : getSubmissions
      (.parsed (serializeLog (cleanupOldSubmissions now (getSubmissions store)))) =
      cleanupOldSubmissions now (getSubmissions store) :=
    getSubmissions_serializeLog _ hP
  have h3 : cleanupOldSubmissions now (cleanupOldSubmissions now (getSubmissions store)) =
      cleanupOldSubmissions now (getSubmissions store) :=
    List.filter_eq_self.mpr (fun a ha => List.of_mem_filter ha)
  have hsnd : (checkRateLimit true store now).2 =
      .parsed (serializeLog (cleanupOldSubmissions now (getSubmissions store))) := rfl
  rw [hsnd]
  simp only [checkRateLimit, h2, h3]

/-- C8 witness: idempotence at a concrete store of finite entries. -/
theorem checkRateLimit_idempotent_witness :
    (checkRateLimit true (checkRateLimit true (.parsed (.arr [.num (.fin 3)])) 10).2
      10).1 = (checkRateLimit true (.parsed (.arr [.num (.fin 3)])) 10).1 :=
  checkRateLimit_idempotent (.parsed (.arr [.num (.fin 3)])) 10 (by decide)
